import Mathlib

/-!
Shallow embedding of the slacksummarizer ingestion-and-summarization core
(src/ingest.ts, src/summarize.ts) together with proofs of the specified
properties.  Pure functions of the source are translated directly; effectful
code (Slack API calls, Prisma store writes) is translated to explicit state
passing, with the external collaborators (Slack API responses, database
write success, the chrono date parser, JS locale date formatting) supplied
as function arguments.  JS numbers used as timestamps are modelled by `Nat`
(the source only ever compares them with `parseFloat`, which is monotone on
the timestamp strings involved); fallible operations return `Option` or
`Except`.
-/

namespace SlackSummarizer

/-! ## Mention extraction (src/ingest.ts, extractMentions)

The source scans the text with the global regex `<@([A-Z0-9]+)>` collecting
the capture of every match, then deduplicates via `[...new Set(mentions)]`
(first occurrence kept, insertion order preserved). -/

/-- Character class `[A-Z0-9]` of the mention regex. -/
def isMentionIdChar (c : Char) : Bool :=
  ('A' ≤ c && c ≤ 'Z') || ('0' ≤ c && c ≤ '9')

/-- Scan of the global regex `<@([A-Z0-9]+)>`: at each position, if the text
reads a literal `<@`, then a nonempty run of `[A-Z0-9]`, then `>`, the run is
captured; otherwise scanning advances.  The JS `lastIndex` resumes after the
consumed `<@RUN>`; since no match can begin inside that span (a match starts
with `<`, which occurs nowhere in `@RUN>`), resuming right after the `<@` is
equivalent and keeps the recursion structural. -/
def mentionScan : List Char → List String
  | [] => []
  | '<' :: '@' :: rest =>
    let run := rest.takeWhile isMentionIdChar
    if !run.isEmpty && ((rest.drop run.length).head? = some '>') then
      run.asString :: mentionScan rest
    else mentionScan rest
  | _ :: rest => mentionScan rest

/-- Model of `[...new Set(xs)]`: deduplication keeping the first occurrence
of each element, in insertion order. -/
def jsSetDedupGo {α : Type} [DecidableEq α] (seen : List α) : List α → List α
  | [] => []
  | x :: xs =>
    if x ∈ seen then jsSetDedupGo seen xs
    else x :: jsSetDedupGo (x :: seen) xs

/-- JS `[...new Set(xs)]`. -/
def jsSetDedup {α : Type} [DecidableEq α] (xs : List α) : List α :=
  jsSetDedupGo [] xs

/-- extractMentions (src/ingest.ts lines 214-224). -/
def extractMentions (text : String) : List String :=
  jsSetDedup (mentionScan text.toList)

/-! ## Rate-limited API client (src/ingest.ts, makeSlackRequest)

The simulated API is an argument `req : Nat → Except SlackErr α` giving the
outcome of each attempt.  The run output records the result, the number of
attempts of the underlying operation, the sleep durations (ms) of each
retried attempt, and the value of the internal `delay` variable at each
retried attempt.  `fuel` stands for `maxRetries - retries`, so the source's
guard `retries < maxRetries` is `0 < fuel`. -/

inductive SlackErrCode : Type
  | rateLimited
  | other
deriving DecidableEq

/-- A Slack API error; `retryAfter` is the optional numeric
`error.retryAfter` field (seconds). -/
structure SlackErr : Type where
  code : SlackErrCode
  retryAfter : Option Nat
deriving DecidableEq

/-- JS `error.retryAfter || 1` (falsy values `undefined` and `0` become 1). -/
def effRetryAfter (ra : Option Nat) : Nat :=
  match ra with
  | none => 1
  | some r => if r = 0 then 1 else r

/-- JS `x || y` on numbers (x falsy iff 0 here). -/
def jsOrNat (x y : Nat) : Nat :=
  if x = 0 then y else x

/-- Observable trace of one `makeSlackRequest` run. -/
structure RunOut (α : Type) : Type where
  result : Except SlackErr α
  attempts : Nat
  sleeps : List Nat
  delays : List Nat

/-- Loop body of makeSlackRequest (src/ingest.ts lines 89-110).
On a rate-limited error with retries remaining it sleeps
`retryAfter * 1000 || delay` milliseconds, doubles `delay`, and retries;
any other error, or an exhausted retry budget, is rethrown. -/
def makeSlackRequestGo {α : Type} (req : Nat → Except SlackErr α) :
    Nat → Nat → Nat → RunOut α
  | 0, _, idx =>
    match req idx with
    | Except.ok a => ⟨Except.ok a, 1, [], []⟩
    | Except.error e => ⟨Except.error e, 1, [], []⟩
  | fuel + 1, delay, idx =>
    match req idx with
    | Except.ok a => ⟨Except.ok a, 1, [], []⟩
    | Except.error e =>
      if e.code = SlackErrCode.rateLimited then
        let rest := makeSlackRequestGo req fuel (delay * 2) (idx + 1)
        ⟨rest.result, rest.attempts + 1,
          jsOrNat (effRetryAfter e.retryAfter * 1000) delay :: rest.sleeps,
          delay :: rest.delays⟩
      else ⟨Except.error e, 1, [], []⟩

/-- makeSlackRequest (src/ingest.ts lines 81-111); `maxRetries` defaults to
config.MAX_RETRIES (3) and `delay` to config.RATE_LIMIT_DELAY (1000). -/
def makeSlackRequest {α : Type} (req : Nat → Except SlackErr α)
    (maxRetries : Nat := 3) (delay : Nat := 1000) : RunOut α :=
  makeSlackRequestGo req maxRetries delay 0

/-! ## A small backtracking regex engine for the task patterns

The seven `TASK_PATTERNS` of src/summarize.ts are JS regexes; every
quantifier in them applies to a single character class, so the engine
supports: character classes, sequencing, alternation, greedy bounded /
unbounded repetition of a class, lazy repetition of a class, capture
groups, word boundaries and the end anchor.  Matching follows the JS
backtracking order (leftmost position, left alternative first, greedy
maximal-first / lazy minimal-first). -/

/-- JS `.` (without the s flag): any character but a line terminator
(LF, CR, U+2028, U+2029). -/
def jsDot (c : Char) : Bool :=
  !(c = '\n' || c = '\r' || c.toNat = 0x2028 || c.toNat = 0x2029)

/-- JS `\w` (also the word class used by `\b`): `[A-Za-z0-9_]`. -/
def jsWordChar (c : Char) : Bool :=
  c.isAlpha || c.isDigit || c = '_'

/-- JS `\s`: whitespace, line terminators, NBSP, BOM and the Unicode
space separators. -/
def jsSpace (c : Char) : Bool :=
  c = ' ' || c = '\t' || c = '\n' || c = '\r' || c = '\x0b' || c = '\x0c' ||
  c.toNat = 0x00a0 || c.toNat = 0xfeff || c.toNat = 0x1680 ||
  (0x2000 ≤ c.toNat && c.toNat ≤ 0x200a) ||
  c.toNat = 0x2028 || c.toNat = 0x2029 || c.toNat = 0x202f ||
  c.toNat = 0x205f || c.toNat = 0x3000

/-- JS `\d`: `[0-9]`. -/
def jsDigit (c : Char) : Bool :=
  c.isDigit

/-- Regex abstract syntax, sufficient for the seven task patterns. -/
inductive RE : Type
  | eps : RE
  | cls (p : Char → Bool) : RE
  | seq (a b : RE) : RE
  | alt (a b : RE) : RE
  | manyG (p : Char → Bool) (lo : Nat) (hi : Option Nat) : RE
  | manyL (p : Char → Bool) (lo : Nat) : RE
  | group (i : Nat) (a : RE) : RE
  | wordB : RE
  | eos : RE

/-- Captured groups: latest binding of each group index wins. -/
def Caps : Type := List (Nat × String)

/-- Record a capture. -/
def setCap (i : Nat) (v : String) (caps : Caps) : Caps :=
  (i, v) :: caps

/-- Read a capture (JS `matches[i]`, `none` = undefined). -/
def getCap (i : Nat) (caps : Caps) : Option String :=
  (List.find? (fun pr => pr.1 = i) caps).map (fun pr => pr.2)

/-- The previous character after consuming `n` characters of `s` (used for
word-boundary tests). -/
def prevAfterConsume (prev : Option Char) (s : List Char) (n : Nat) :
    Option Char :=
  if n = 0 then prev else s.get? (n - 1)

/-- Word-boundary test between the previous character and the next one. -/
def atWordBoundary (prev : Option Char) (s : List Char) : Bool :=
  (match prev with | none => false | some c => jsWordChar c) !=
    (match s.head? with | none => false | some c => jsWordChar c)

/-- Try repetition counts from `n` down to `lo` (greedy backtracking). -/
def tryCountsDown (lo : Nat) (f : Nat → Option Caps) : Nat → Option Caps
  | 0 => if lo = 0 then f 0 else none
  | n + 1 =>
    if lo ≤ n + 1 then (f (n + 1)) <|> tryCountsDown lo f n
    else none

/-- Try repetition counts from `start` upward through `budget` more
(lazy backtracking). -/
def tryCountsUp (f : Nat → Option Caps) (start : Nat) : Nat → Option Caps
  | 0 => f start
  | b + 1 => (f start) <|> tryCountsUp f (start + 1) b

/-- Backtracking matcher in continuation-passing style.  `prev` is the
character just before the current position, `k` the continuation receiving
the new previous character, the rest of the input and the captures. -/
def reMatchCore : RE → Option Char → List Char → Caps →
    (Option Char → List Char → Caps → Option Caps) → Option Caps
  | RE.eps, prev, s, caps, k => k prev s caps
  | RE.cls p, _, s, caps, k =>
    match s with
    | [] => none
    | c :: rest => if p c then k (some c) rest caps else none
  | RE.seq a b, prev, s, caps, k =>
    reMatchCore a prev s caps
      (fun prev' s' caps' => reMatchCore b prev' s' caps' k)
  | RE.alt a b, prev, s, caps, k =>
    (reMatchCore a prev s caps k) <|> (reMatchCore b prev s caps k)
  | RE.manyG p lo hi, prev, s, caps, k =>
    let avail := (s.takeWhile p).length
    let m := match hi with | none => avail | some hh => min hh avail
    if avail < lo then none
    else tryCountsDown lo
      (fun n => k (prevAfterConsume prev s n) (s.drop n) caps) m
  | RE.manyL p lo, prev, s, caps, k =>
    let avail := (s.takeWhile p).length
    if avail < lo then none
    else tryCountsUp
      (fun n => k (prevAfterConsume prev s n) (s.drop n) caps) lo (avail - lo)
  | RE.group i a, prev, s, caps, k =>
    reMatchCore a prev s caps
      (fun prev' s' caps' =>
        k prev' s' (setCap i ((s.take (s.length - s'.length)).asString) caps'))
  | RE.wordB, prev, s, caps, k =>
    if atWordBoundary prev s then k prev s caps else none
  | RE.eos, prev, s, caps, k =>
    match s with
    | [] => k prev [] caps
    | _ :: _ => none

/-- Leftmost-match scan of `String.prototype.match` with a non-global
regex: try to match at each position from the left. -/
def reScan (re : RE) : Option Char → List Char → Option Caps
  | prev, s =>
    match reMatchCore re prev s [] (fun _ _ caps => some caps) with
    | some caps => some caps
    | none =>
      match s with
      | [] => none
      | c :: rest => reScan re (some c) rest

/-- JS `text.match(re)` reduced to its captures (`none` = no match). -/
def reFirstMatch (re : RE) (s : String) : Option Caps :=
  reScan re none s.toList

/-- A single literal character, optionally case-insensitive (the `i` flag
lower-cases both sides). -/
def reChar (ci : Bool) (c : Char) : RE :=
  RE.cls (fun x => if ci then x.toLower = c.toLower else x = c)

/-- Sequence a list of regexes. -/
def reSeqList (l : List RE) : RE :=
  l.foldr RE.seq RE.eps

/-- A literal string. -/
def reStr (ci : Bool) (s : String) : RE :=
  reSeqList (s.toList.map (reChar ci))

/-- Left-to-right alternation of a list of regexes. -/
def reAlts : List RE → RE
  | [] => RE.cls (fun _ => false)
  | [r] => r
  | r :: rs => RE.alt r (reAlts rs)

/-- The actionable-verb alternation shared by task patterns 2-4. -/
def verbAlt : RE :=
  reAlts (["do", "create", "update", "change", "fix", "implement", "add",
    "remove", "check", "review"].map (reStr true))

/-- The `(?:\.|$)` tail shared by all task patterns. -/
def dotOrEnd : RE :=
  RE.alt (RE.cls (fun c => c = '.')) RE.eos

/-- Pattern 1: `/\btodo\b:?\s*(.+?)(?:\.|$)/i`. -/
def taskPattern1 : RE :=
  reSeqList [RE.wordB, reStr true "todo", RE.wordB,
    RE.manyG (fun c => c = ':') 0 (some 1), RE.manyG jsSpace 0 none,
    RE.group 1 (RE.manyL jsDot 1), dotOrEnd]

/-- Pattern 2:
`/\bplease\b.{0,15}(do|create|update|change|fix|implement|add|remove|check|review)(.+?)(?:\.|$)/i`. -/
def taskPattern2 : RE :=
  reSeqList [RE.wordB, reStr true "please", RE.wordB,
    RE.manyG jsDot 0 (some 15), RE.group 1 verbAlt,
    RE.group 2 (RE.manyL jsDot 1), dotOrEnd]

/-- Pattern 3:
`/(?:need|needs) to\s+(do|create|update|change|fix|implement|add|remove|check|review)(.+?)(?:\.|$)/i`. -/
def taskPattern3 : RE :=
  reSeqList [reAlts [reStr true "need", reStr true "needs"], reStr true " to",
    RE.manyG jsSpace 1 none, RE.group 1 verbAlt,
    RE.group 2 (RE.manyL jsDot 1), dotOrEnd]

/-- Pattern 4:
`/\b(do|create|update|change|fix|implement|add|remove|check|review)\b.{0,15}(by|before|after|on)(.+?)(?:\.|$)/i`. -/
def taskPattern4 : RE :=
  reSeqList [RE.wordB, RE.group 1 verbAlt, RE.wordB,
    RE.manyG jsDot 0 (some 15),
    RE.group 2 (reAlts (["by", "before", "after", "on"].map (reStr true))),
    RE.group 3 (RE.manyL jsDot 1), dotOrEnd]

/-- Pattern 5: `/\[\s?\]\s+(.+?)(?:\.|$)/`. -/
def taskPattern5 : RE :=
  reSeqList [RE.cls (fun c => c = '['), RE.manyG jsSpace 0 (some 1),
    RE.cls (fun c => c = ']'), RE.manyG jsSpace 1 none,
    RE.group 1 (RE.manyL jsDot 1), dotOrEnd]

/-- Pattern 6: `/\*\s+(.+?)(?:\.|$)/`. -/
def taskPattern6 : RE :=
  reSeqList [RE.cls (fun c => c = '*'), RE.manyG jsSpace 1 none,
    RE.group 1 (RE.manyL jsDot 1), dotOrEnd]

/-- Pattern 7: `/\d+\.\s+(.+?)(?:\.|$)/`. -/
def taskPattern7 : RE :=
  reSeqList [RE.manyG jsDigit 1 none, RE.cls (fun c => c = '.'),
    RE.manyG jsSpace 1 none, RE.group 1 (RE.manyL jsDot 1), dotOrEnd]

/-- TASK_PATTERNS (src/summarize.ts lines 271-279) with the number of
capture groups of each pattern. -/
def TASK_PATTERNS : List (RE × Nat) :=
  [(taskPattern1, 1), (taskPattern2, 2), (taskPattern3, 2), (taskPattern4, 3),
    (taskPattern5, 1), (taskPattern6, 1), (taskPattern7, 1)]

/-! ## Task heuristic extraction (src/summarize.ts, extractTasksHeuristic)

The chrono-node date parser is an external library; it is supplied as an
argument `chronoFirst : String → Option String` returning the ISO string of
the first parsed date expression, if any. -/

/-- A candidate task (the `SummaryData['tasks']` element type). -/
structure STask : Type where
  title : String
  owner_user_id : Option String
  due_date : Option String
  confidence : ℚ
  source_ts : String
  source_permalink : String
deriving DecidableEq

/-- The message projection passed to extractTasksHeuristic. -/
structure TaskMsg : Type where
  text : String
  ts : String
  permalink : String
  user_id : String
deriving DecidableEq

/-- JS `matches.slice(1).join(' ')`: the capture groups 1..n joined with a
space, an unmatched group contributing the empty string. -/
def joinGroups (n : Nat) (caps : Caps) : String :=
  String.intercalate " "
    ((List.range n).map (fun i => (getCap (i + 1) caps).getD ""))

/-- JS `String.prototype.trim`: strips the JS whitespace and line
terminators (the `jsSpace` class) from both ends. -/
def jsTrim (s : String) : String :=
  (((s.toList.dropWhile jsSpace).reverse.dropWhile jsSpace).reverse).asString

/-- extractTasksHeuristic (src/summarize.ts lines 292-330).  For each
pattern that matches (with the match array longer than 1, i.e. at least one
capture group — true of all seven patterns), the groups joined and trimmed
give the title (discarded under 5 characters); the owner is the single
mention when the text has exactly one distinct mention; the due date is the
first chrono-parsed date; the confidence is the fixed heuristic 0.6. -/
def extractTasksHeuristic (chronoFirst : String → Option String)
    (message : TaskMsg) : List STask :=
  TASK_PATTERNS.filterMap (fun pr =>
    match reFirstMatch pr.1 message.text with
    | none => none
    | some caps =>
      if pr.2 + 1 > 1 then
        if (jsTrim (joinGroups pr.2 caps)).length < 5 then none
        else
          some
            { title := jsTrim (joinGroups pr.2 caps)
              owner_user_id :=
                match extractMentions message.text with
                | [u] => some u
                | _ => none
              due_date := chronoFirst message.text
              confidence := (6 : ℚ) / 10
              source_ts := message.ts
              source_permalink := message.permalink }
      else none)

/-! ## Heuristic summary generation (src/summarize.ts)

JS `Date#toLocaleString` applied to the parsed timestamp is
environment-dependent; it is supplied as an argument
`fmtTs : String → String` taking the raw `ts` string. -/

/-- A highlight entry of a summary. -/
structure SHighlight : Type where
  text : String
  permalink : String
  ts : String
  user_id : String
deriving DecidableEq

/-- Per-user mention statistics. -/
structure MentionStat : Type where
  count : Nat
  contexts : List String
deriving DecidableEq

/-- The `SummaryData` shape produced by both summary paths. -/
structure SummaryData : Type where
  summary : String
  highlights : List SHighlight
  tasks : List STask
  mentions : List (String × MentionStat)
deriving DecidableEq

/-- A message row as read back from the store for summarization. -/
structure SumMsg : Type where
  text : String
  ts : String
  thread_ts : Option String
  permalink : String
  user_id : String
  reactions : Option (List (String × List String))
deriving DecidableEq

/-- One step of building the mentions map (insertion-ordered record): a new
user enters with count 1 and one context, an existing user's count is
incremented and the context appended while fewer than 3 are stored. -/
def addMentionCtx (acc : List (String × MentionStat)) (uid : String)
    (ctx : String) : List (String × MentionStat) :=
  if acc.any (fun pr => pr.1 = uid) then
    acc.map (fun pr =>
      if pr.1 = uid then
        (pr.1,
          ⟨pr.2.count + 1,
            if pr.2.contexts.length < 3 then pr.2.contexts ++ [ctx]
            else pr.2.contexts⟩)
      else pr)
  else acc ++ [(uid, ⟨1, [ctx]⟩)]

/-- The `Key messages` tail of the heuristic recap (src/summarize.ts lines
494-499): one numbered, truncated, quoted line per highlight; empty when
there are no highlights. -/
def heuristicKeyMessages (highlights : List SHighlight) : String :=
  if highlights.length > 0 then
    "\nKey messages:\n" ++
      String.join (highlights.enum.map (fun pr =>
        toString (pr.1 + 1) ++ ". \x22" ++ pr.2.text.take 50 ++
          "...\x22\n"))
  else ""

/-- The heuristic recap text (src/summarize.ts lines 482-499): the
templated statistics header followed by the key-message lines. -/
def heuristicSummaryText (channelName periodFrom periodTo : String)
    (total threads participants : Nat) (keyMsgs : String) : String :=
  "Channel: " ++ channelName ++ "\n" ++
  "Period: " ++ periodFrom ++ " to " ++ periodTo ++ "\n\n" ++
  "Total messages: " ++ toString total ++ "\n" ++
  "Active threads: " ++ toString threads ++ "\n" ++
  "Unique participants: " ++ toString participants ++ "\n" ++ keyMsgs

/-- The highlight filter of generateHeuristicSummary: messages with
reactions, thread parents, or questions. -/
def isHighlightMsg (messages : List SumMsg) (msg : SumMsg) : Bool :=
  (match msg.reactions with
   | some rs => rs.length > 0
   | none => false) ||
  (messages.any (fun m => m.thread_ts = some msg.ts && m.ts ≠ msg.ts)) ||
  (msg.text.contains '?')

/-- generateHeuristicSummary (src/summarize.ts lines 412-507). -/
def generateHeuristicSummary (fmtTs : String → String)
    (chronoFirst : String → Option String) (messages : List SumMsg)
    (channelName : String) : SummaryData :=
  let highlights :=
    ((messages.filter (isHighlightMsg messages)).map (fun msg =>
      ({ text := msg.text, permalink := msg.permalink, ts := msg.ts,
         user_id := msg.user_id } : SHighlight))).take 5
  let threadCount :=
    (jsSetDedup ((messages.filter (fun m =>
      m.thread_ts.isSome && m.thread_ts ≠ some m.ts)).filterMap
        (fun m => m.thread_ts))).length
  let mentionsMap :=
    messages.foldl (fun acc msg =>
      (extractMentions msg.text).foldl (fun acc2 uid =>
        addMentionCtx acc2 uid (msg.text.take 30 ++ "...")) acc) []
  let tasks :=
    messages.foldl (fun acc msg =>
      acc ++ extractTasksHeuristic chronoFirst
        ⟨msg.text, msg.ts, msg.permalink, msg.user_id⟩) []
  let firstTs := ((messages.head?).map (fun m => m.ts)).getD "0"
  let lastTs := ((messages.getLast?).map (fun m => m.ts)).getD "0"
  let participants := (jsSetDedup (messages.map (fun m => m.user_id))).length
  { summary := heuristicSummaryText channelName (fmtTs firstTs)
      (fmtTs lastTs) messages.length threadCount participants
      (heuristicKeyMessages highlights)
    highlights := highlights
    tasks := tasks
    mentions := mentionsMap }

/-- A conversation row as read by the summarizer. -/
structure ConvRowS : Type where
  id : Nat
  name : String
deriving DecidableEq

/-- A persisted summary row (prisma.summary.create). -/
structure StoredSummary : Type where
  channel_id : Nat
  period_start : Nat
  period_end : Nat
  summary : String
  highlights : List SHighlight
  tasks : List STask
  mentions : List (String × MentionStat)
deriving DecidableEq

/-- generateSummaryForTimeWindow (src/summarize.ts lines 512-618).
`conv` is the store's `findUnique` result, `msgs` the window query result,
`aiPath` states the model-backed path: `none` if the generative service is
unconfigured, otherwise the outcome of the call (an `Except.error` when it
throws).  A missing conversation rethrows; an empty window returns no row;
otherwise the model result or — when that path errors or is unconfigured —
the heuristic summary is persisted and returned. -/
def generateSummaryForTimeWindow (fmtTs : String → String)
    (chronoFirst : String → Option String) (conv : Option ConvRowS)
    (msgs : List SumMsg) (aiPath : Option (Except Unit SummaryData))
    (startT endT : Nat) (store : List StoredSummary) :
    Except Unit (Option StoredSummary) × List StoredSummary :=
  match conv with
  | none => (Except.error (), store)
  | some c =>
    if msgs.isEmpty then (Except.ok none, store)
    else
      let data :=
        match aiPath with
        | some (Except.ok d) => d
        | some (Except.error _) =>
          generateHeuristicSummary fmtTs chronoFirst msgs c.name
        | none => generateHeuristicSummary fmtTs chronoFirst msgs c.name
      let row : StoredSummary :=
        ⟨c.id, startT, endT, data.summary, data.highlights, data.tasks,
          data.mentions⟩
      (Except.ok (some row), store ++ [row])

/-! ## User directory cache (src/ingest.ts, getUserInfo)

The Slack `users.info` call is an argument
`api : Except Unit (Option SlackUser)` — an `Except.error` for an API
failure, `Except.ok none` when the response carries no user (the source
then throws "User not found", caught by the same handler).  `dbOk` states
whether the `prisma.user.upsert` write succeeds. -/

/-- An entry of the in-memory user cache (`UserCacheItem`). -/
structure UserCacheItem : Type where
  id : String
  name : String
  real_name : Option String
  email : Option String
  avatar : Option String
  is_bot : Bool
  timestamp : Nat
deriving DecidableEq

/-- The fields read off the Slack `users.info` response. -/
structure SlackUser : Type where
  name : String
  real_name : Option String
  email : Option String
  avatar : Option String
  is_bot : Bool
deriving DecidableEq

/-- A row of the `user` table. -/
structure UserDbRow : Type where
  slack_id : String
  name : String
  real_name : Option String
  email : Option String
  avatar : Option String
  is_bot : Bool
  last_updated : Nat
deriving DecidableEq

/-- USER_CACHE_TTL (src/ingest.ts line 76): one hour in milliseconds. -/
def USER_CACHE_TTL : Nat := 3600 * 1000

/-- The mutable state touched by getUserInfo: the in-memory cache and the
`user` table. -/
structure UserEnv : Type where
  cache : List (String × UserCacheItem)
  users : List UserDbRow
deriving DecidableEq

/-- prisma.user.upsert keyed on slack_id. -/
def upsertUser (row : UserDbRow) (users : List UserDbRow) : List UserDbRow :=
  if users.any (fun r => r.slack_id = row.slack_id) then
    users.map (fun r => if r.slack_id = row.slack_id then row else r)
  else users ++ [row]

/-- Overwrite of a cache entry (`userCache[userId] = ...`). -/
def setCacheEntry (uid : String) (item : UserCacheItem)
    (cache : List (String × UserCacheItem)) :
    List (String × UserCacheItem) :=
  if cache.any (fun pr => pr.1 = uid) then
    cache.map (fun pr => if pr.1 = uid then (uid, item) else pr)
  else cache ++ [(uid, item)]

/-- getUserInfo (src/ingest.ts lines 229-285).  A fresh cache entry is
returned as is; otherwise the API is consulted, the user row upserted, the
cache refreshed; any failure along the way is caught and yields `none` with
the state unchanged. -/
def getUserInfo (now : Nat) (api : Except Unit (Option SlackUser))
    (dbOk : Bool) (userId : String) (env : UserEnv) :
    Option UserCacheItem × UserEnv :=
  match env.cache.find? (fun pr => pr.1 = userId) with
  | some pr =>
    if now - pr.2.timestamp < USER_CACHE_TTL then (some pr.2, env)
    else getUserInfoFetch now api dbOk userId env
  | none => getUserInfoFetch now api dbOk userId env
where
  getUserInfoFetch (now : Nat) (api : Except Unit (Option SlackUser))
      (dbOk : Bool) (userId : String) (env : UserEnv) :
      Option UserCacheItem × UserEnv :=
    match api with
    | Except.error _ => (none, env)
    | Except.ok none => (none, env)
    | Except.ok (some u) =>
      if dbOk then
        let item : UserCacheItem :=
          ⟨userId, u.name, u.real_name, u.email, u.avatar, u.is_bot, now⟩
        (some item,
          ⟨setCacheEntry userId item env.cache,
            upsertUser ⟨userId, u.name, u.real_name, u.email, u.avatar,
              u.is_bot, now⟩ env.users⟩)
      else (none, env)

/-! ## Message persistence (src/ingest.ts, processMessage)

`getPermalink` catches its own errors and returns `''`, so the permalink is
an argument; `upsertOk` states whether `prisma.message.upsert` succeeds
(its failure is caught and turned into a `null` return). -/

/-- A reaction of a history message. -/
structure SlackReaction : Type where
  name : String
  count : Nat
  users : List String
deriving DecidableEq

/-- A message of a `conversations.history` / `conversations.replies`
response.  `user = none` models a missing (falsy) user field. -/
structure HMsg : Type where
  type : String
  user : Option String
  text : String
  ts : Nat
  thread_ts : Option Nat
  reply_count : Option Nat
  reactions : Option (List SlackReaction)
deriving DecidableEq

/-- A row of the `message` table. -/
structure StoredMsg : Type where
  channel_id : Nat
  ts : Nat
  user_id : String
  text : String
  thread_ts : Option Nat
  permalink : String
  reactions : Option (List (String × List String))
  mentions : List String
deriving DecidableEq

/-- The `message.reactions.reduce` of processMessage: a record keyed by
reaction name holding the user lists (a later duplicate name overwrites). -/
def jsReduceReactions (rs : List SlackReaction) :
    List (String × List String) :=
  rs.foldl (fun acc r =>
    if acc.any (fun pr => pr.1 = r.name) then
      acc.map (fun pr => if pr.1 = r.name then (r.name, r.users) else pr)
    else acc ++ [(r.name, r.users)]) []

/-- prisma.message.upsert keyed on (channel_id, ts): an existing row keeps
its `user_id` and receives the update fields; otherwise the full row is
created.  Returns the resulting row and the new table. -/
def upsertMessage (row : StoredMsg) (store : List StoredMsg) :
    StoredMsg × List StoredMsg :=
  match store.find? (fun r => r.channel_id = row.channel_id && r.ts = row.ts)
    with
  | some old =>
    let updated : StoredMsg :=
      { old with
        text := row.text
        thread_ts := row.thread_ts
        permalink := row.permalink
        reactions := row.reactions
        mentions := row.mentions }
    (updated,
      store.map (fun r =>
        if r.channel_id = row.channel_id && r.ts = row.ts then updated
        else r))
  | none => (row, store ++ [row])

/-- processMessage (src/ingest.ts lines 378-442).  Messages without a user
or of a non-'message' type are skipped; otherwise mentions are extracted,
the mentioned users resolved (a separate state, see getUserInfo — their
failures are swallowed there), and the row upserted; a failing upsert is
caught and yields `null` with the table unchanged. -/
def processMessage (permalink : String) (upsertOk : Bool) (m : HMsg)
    (channelId : String) (convDbId : Nat) (store : List StoredMsg) :
    Option StoredMsg × List StoredMsg :=
  if m.user = none ∨ m.type ≠ "message" then (none, store)
  else
    let mentions := extractMentions m.text
    let reactions := m.reactions.map jsReduceReactions
    let row : StoredMsg :=
      { channel_id := convDbId, ts := m.ts, user_id := m.user.getD "",
        text := m.text, thread_ts := m.thread_ts, permalink := permalink,
        reactions := reactions, mentions := mentions }
    if upsertOk then
      let res := upsertMessage row store
      (some res.1, res.2)
    else (none, store)

/-! ## History fetching and the ingestion run (src/ingest.ts) -/

/-- The thread-backfill targets of fetchMessages (line 317): messages with
a (truthy) `thread_ts` and a falsy `reply_count`.  For each such message
`fetchThreadReplies(conversationId, message.ts)` is invoked. -/
def historyThreadFetchTargets (history : List HMsg) : List Nat :=
  (history.filter (fun m =>
    m.thread_ts.isSome && (m.reply_count = none || m.reply_count = some 0)))
    |>.map (fun m => m.ts)

/-- fetchMessages (src/ingest.ts lines 290-333): the paginated history is
collected (here the pagination is already folded into the `history` input);
then, for every filtered message, fetchThreadReplies is awaited — and its
return value discarded — before the plain history is returned. -/
def fetchMessages (history : List HMsg) (repliesOf : Nat → List HMsg) :
    List HMsg :=
  let _ := (historyThreadFetchTargets history).map repliesOf
  history

/-- The page-collection loop of fetchThreadReplies (src/ingest.ts lines
344-363): the first element of a page is dropped while the accumulator is
still empty (the thread parent, already stored). -/
def collectReplies : List (List HMsg) → List HMsg → List HMsg
  | [], acc => acc
  | page :: rest, acc =>
    if acc.isEmpty && !page.isEmpty then
      collectReplies rest (acc ++ page.drop 1)
    else collectReplies rest (acc ++ page)

/-- fetchThreadReplies (src/ingest.ts lines 338-373) on its list of
response pages. -/
def fetchThreadReplies (pages : List (List HMsg)) : List HMsg :=
  collectReplies pages []

/-- A row of the `conversation` table. -/
structure ConvRow : Type where
  id : Nat
  slack_id : String
  last_ts_processed : Option Nat
deriving DecidableEq

/-- Outcome of one conversation's ingestion pass. -/
structure IngestState : Type where
  store : List StoredMsg
  watermark : Option Nat
deriving DecidableEq

/-- The `lastTs` tracking of ingestAllConversations (lines 554-563): the
maximum message timestamp, over **all** fetched messages, persisted or
not. -/
def jsMaxTs (msgs : List HMsg) : Option Nat :=
  msgs.foldl (fun acc m =>
    match acc with
    | none => some m.ts
    | some t => if t < m.ts then some m.ts else acc) none

/-- The fetch lower bound of ingestAllConversations (lines 530-534):
the explicit `since` override, else the stored watermark. -/
def ingestOldest (since : Option Nat) (watermark : Option Nat) :
    Option Nat :=
  match since with
  | some s => some s
  | none => watermark

/-- The per-conversation message loop and watermark update of
ingestAllConversations (lines 554-571): every fetched message is passed to
processMessage (whose per-message failure, `persistOk m = false`, is
swallowed), `lastTs` tracks the maximum fetched timestamp unconditionally,
and when some message was fetched the stored watermark is set to that
maximum. -/
def ingestConversationMessages (permalinkOf : Nat → String)
    (persistOk : HMsg → Bool) (conv : ConvRow) (msgs : List HMsg)
    (store : List StoredMsg) : IngestState :=
  let store' :=
    msgs.foldl (fun st m =>
      (processMessage (permalinkOf m.ts) (persistOk m) m conv.slack_id
        conv.id st).2) store
  { store := store'
    watermark :=
      match jsMaxTs msgs with
      | some t => some t
      | none => conv.last_ts_processed }

/-- One conversation's slice of an ingestion run (lines 512-571): the
lower bound is the `since` override, else the stored watermark; the history
returned by the API for that bound (an oracle `historyOf`) is fetched (with
its discarded thread-reply backfill), processed, and the watermark
updated. -/
def ingestConversationRun (permalinkOf : Nat → String)
    (persistOk : HMsg → Bool) (since : Option Nat) (conv : ConvRow)
    (historyOf : Option Nat → List HMsg) (repliesOf : Nat → List HMsg)
    (store : List StoredMsg) : IngestState :=
  let oldest := ingestOldest since conv.last_ts_processed
  ingestConversationMessages permalinkOf persistOk conv
    (fetchMessages (historyOf oldest) repliesOf) store

/-- Comparison of watermarks (`none` = never processed, below
everything). -/
def optTsLe : Option Nat → Option Nat → Bool
  | none, _ => true
  | some _, none => false
  | some a, some b => a ≤ b

/-! ## Helper lemmas -/

/-- Membership in the JS-Set deduplication: an element appears iff it was
in the input and was not already seen. -/
theorem mem_jsSetDedupGo {α : Type} [DecidableEq α] (l : List α) :
    ∀ (seen : List α) (y : α),
      y ∈ jsSetDedupGo seen l ↔ (y ∈ l ∧ y ∉ seen) := by
  induction l with
  | nil => intro seen y; simp [jsSetDedupGo]
  | cons x xs ih =>
    intro seen y
    simp only [jsSetDedupGo]
    by_cases hx : x ∈ seen
    · rw [if_pos hx, ih]
      simp only [List.mem_cons]
      constructor
      · rintro ⟨hy, hs⟩
        exact ⟨Or.inr hy, hs⟩
      · rintro ⟨hy | hy, hs⟩
        · exact absurd (hy ▸ hx) hs
        · exact ⟨hy, hs⟩
    · rw [if_neg hx]
      simp only [List.mem_cons, ih, List.mem_cons]
      constructor
      · rintro (rfl | ⟨hy, hs⟩)
        · exact ⟨Or.inl rfl, hx⟩
        · push_neg at hs
          exact ⟨Or.inr hy, hs.2⟩
      · rintro ⟨rfl | hy, hs⟩
        · exact Or.inl rfl
        · by_cases hyx : y = x
          · exact Or.inl hyx
          · refine Or.inr ⟨hy, ?_⟩
            simp [hyx, hs]

/-- The JS-Set deduplication never repeats an element. -/
theorem nodup_jsSetDedupGo {α : Type} [DecidableEq α] (l : List α) :
    ∀ seen : List α, (jsSetDedupGo seen l).Nodup := by
  induction l with
  | nil => intro seen; simp [jsSetDedupGo]
  | cons x xs ih =>
    intro seen
    simp only [jsSetDedupGo]
    by_cases hx : x ∈ seen
    · rw [if_pos hx]; exact ih seen
    · rw [if_neg hx, List.nodup_cons]
      refine ⟨?_, ih _⟩
      rw [mem_jsSetDedupGo]
      rintro ⟨-, hmem⟩
      exact hmem (List.mem_cons_self x seen)

/-- Membership in `jsSetDedup` is membership in the input. -/
theorem mem_jsSetDedup {α : Type} [DecidableEq α] (l : List α) (y : α) :
    y ∈ jsSetDedup l ↔ y ∈ l := by
  rw [jsSetDedup, mem_jsSetDedupGo]
  simp

/-- `jsSetDedup` produces a duplicate-free list. -/
theorem nodup_jsSetDedup {α : Type} [DecidableEq α] (l : List α) :
    (jsSetDedup l).Nodup :=
  nodup_jsSetDedupGo l []

/-! ## C6 -/

/-- C6: for every input string, `extractMentions` returns the deduplicated
collection of ids matched by the `<@ID>` syntax — duplicate-free, with
membership exactly the ids found by the regex scan; an input with zero
matches returns the empty list (and, being a total function, never an
error); and on `"<@U1> hi <@U1> <@U2>"` it returns exactly `{U1, U2}`. -/
theorem c6_mention_dedup :
    (∀ s : String, (extractMentions s).Nodup) ∧
    (∀ s : String, ∀ u : String,
      u ∈ extractMentions s ↔ u ∈ mentionScan s.toList) ∧
    (∀ s : String, mentionScan s.toList = [] → extractMentions s = []) ∧
    extractMentions "<@U1> hi <@U1> <@U2>" = ["U1", "U2"] := by
  refine ⟨fun s => nodup_jsSetDedup _, fun s u => mem_jsSetDedup _ _,
    fun s h => ?_, by decide⟩
  rw [extractMentions, h]
  rfl

/-- Witness for C6 at concrete inputs. -/
theorem c6_mention_dedup_witness :
    (extractMentions "<@U1> hi <@U1> <@U2>").Nodup ∧
    extractMentions "just plain text" = [] := by
  exact ⟨c6_mention_dedup.1 _, c6_mention_dedup.2.2.1 _ (by decide)⟩

/-! ## C7 -/

/-- C7: every task candidate produced by `extractTasksHeuristic` carries as
owner the single mentioned user id exactly when the message text contains
exactly one distinct mention, and no owner (`none`) when it contains zero
or at least two distinct mentions. -/
theorem c7_task_owner_single_mention (chronoFirst : String → Option String)
    (msg : TaskMsg) (t : STask)
    (h : t ∈ extractTasksHeuristic chronoFirst msg) :
    t.owner_user_id =
      match extractMentions msg.text with
      | [u] => some u
      | _ => none := by
  unfold extractTasksHeuristic at h
  rw [List.mem_filterMap] at h
  obtain ⟨pr, -, hpr⟩ := h
  split at hpr
  · exact absurd hpr (by simp)
  · split at hpr
    · split at hpr
      · exact absurd hpr (by simp)
      · rw [Option.some.injEq] at hpr
        subst hpr
        rfl
    · exact absurd hpr (by simp)

/-- Witness for C7: a message with an actionable marker and two distinct
mentions yields a task with no owner; the same marker with exactly one
mention yields a task owned by that id. -/
theorem c7_task_owner_single_mention_witness :
    (∃ t ∈ extractTasksHeuristic (fun _ => none)
        ⟨"todo: ping <@U1ABC> and <@U2ABC>", "1.0", "p", "U0"⟩,
      t.owner_user_id = none) ∧
    (∃ t ∈ extractTasksHeuristic (fun _ => none)
        ⟨"todo: ping <@U1ABC>", "1.0", "p", "U0"⟩,
      t.owner_user_id = some "U1ABC") := by
  constructor
  · have hlist :
        extractTasksHeuristic (fun _ => none)
            ⟨"todo: ping <@U1ABC> and <@U2ABC>", "1.0", "p", "U0"⟩ =
          [⟨"ping <@U1ABC> and <@U2ABC>", none, none, (6 : ℚ) / 10, "1.0",
            "p"⟩] := by
      rfl
    have hmem :
        (⟨"ping <@U1ABC> and <@U2ABC>", none, none, (6 : ℚ) / 10, "1.0",
          "p"⟩ : STask) ∈
          extractTasksHeuristic (fun _ => none)
            ⟨"todo: ping <@U1ABC> and <@U2ABC>", "1.0", "p", "U0"⟩ := by
      rw [hlist]
      exact List.mem_singleton_self _
    exact ⟨_, hmem, (c7_task_owner_single_mention (fun _ => none) _ _
      hmem).trans (by decide)⟩
  · have hlist :
        extractTasksHeuristic (fun _ => none)
            ⟨"todo: ping <@U1ABC>", "1.0", "p", "U0"⟩ =
          [⟨"ping <@U1ABC>", some "U1ABC", none, (6 : ℚ) / 10, "1.0",
            "p"⟩] := by
      rfl
    have hmem :
        (⟨"ping <@U1ABC>", some "U1ABC", none, (6 : ℚ) / 10, "1.0",
          "p"⟩ : STask) ∈
          extractTasksHeuristic (fun _ => none)
            ⟨"todo: ping <@U1ABC>", "1.0", "p", "U0"⟩ := by
      rw [hlist]
      exact List.mem_singleton_self _
    exact ⟨_, hmem, (c7_task_owner_single_mention (fun _ => none) _ _
      hmem).trans (by decide)⟩

/-! ## C10 -/

/-- C10: processMessage never raises — the catch-all translates every
failure to a `none` return — and for a message lacking an author, of a
non-'message' type, or whose persistence fails, it returns `none` and
leaves the message table exactly as it was. -/
theorem c10_process_message_skips_and_failures (permalink : String)
    (upsertOk : Bool) (m : HMsg) (channelId : String) (convDbId : Nat)
    (store : List StoredMsg)
    (h : m.user = none ∨ m.type ≠ "message" ∨ upsertOk = false) :
    processMessage permalink upsertOk m channelId convDbId store =
      (none, store) := by
  unfold processMessage
  rcases h with h | h | h
  · rw [if_pos (Or.inl h)]
  · rw [if_pos (Or.inr h)]
  · by_cases hskip : m.user = none ∨ m.type ≠ "message"
    · rw [if_pos hskip]
    · rw [if_neg hskip]
      simp only [h, Bool.false_eq_true, if_false]

/-- Witness for C10: a failing upsert on an otherwise valid message stores
nothing, and a user-less message is skipped. -/
theorem c10_process_message_skips_and_failures_witness :
    processMessage "pl" false
        ⟨"message", some "U1", "hi", 10, none, none, none⟩ "C1" 1 [] =
      (none, []) ∧
    processMessage "pl" true ⟨"message", none, "hi", 11, none, none, none⟩
        "C1" 1 [] =
      (none, []) :=
  ⟨c10_process_message_skips_and_failures "pl" false _ "C1" 1 []
      (Or.inr (Or.inr rfl)),
    c10_process_message_skips_and_failures "pl" true _ "C1" 1 []
      (Or.inl rfl)⟩

/-! ## C9 -/

/-- C9 counterexample: on a failing directory lookup `getUserInfo` yields
`null` (`none`) — not a synthetic placeholder user record as the claim
states. -/
theorem c9_lookup_failure_yields_no_record :
    (getUserInfo 0 (Except.error ()) true "U404" ⟨[], []⟩).1 = none := by
  rfl

/-- C9 (amended): for a user id missing from the cache (or whose entry is
stale), a failing lookup — an API error or a response without a user —
yields `none` without raising, and leaves the cache and the user table
unchanged, so the caller is not stalled. -/
theorem c9_lookup_failure_amended (now : Nat)
    (api : Except Unit (Option SlackUser)) (dbOk : Bool) (uid : String)
    (env : UserEnv)
    (hfail : api = Except.error () ∨ api = Except.ok none)
    (hmiss : ∀ pr, env.cache.find? (fun q => q.1 = uid) = some pr →
      USER_CACHE_TTL ≤ now - pr.2.timestamp) :
    getUserInfo now api dbOk uid env = (none, env) := by
  have hfetch : getUserInfo.getUserInfoFetch now api dbOk uid env =
      (none, env) := by
    rcases hfail with h | h <;> rw [h] <;> rfl
  unfold getUserInfo
  cases hfind : env.cache.find? (fun q => q.1 = uid) with
  | none => exact hfetch
  | some pr =>
    have hstale := hmiss pr hfind
    show (if now - pr.2.timestamp < USER_CACHE_TTL then (some pr.2, env)
      else getUserInfo.getUserInfoFetch now api dbOk uid env) = (none, env)
    rw [if_neg (by omega)]
    exact hfetch

/-- Witness for C9 (amended) at a concrete failing lookup. -/
theorem c9_lookup_failure_amended_witness :
    getUserInfo 5 (Except.error ()) true "U404" ⟨[], []⟩ =
      (none, ⟨[], []⟩) :=
  c9_lookup_failure_amended 5 (Except.error ()) true "U404" ⟨[], []⟩
    (Or.inl rfl) (by intro pr h; simp [List.find?] at h)

/-! ## C1 -/

/-- C1: the code violates the claim.  With a single fetched message of
timestamp 10 whose persistence fails (`persistOk` false: the upsert throws
and `processMessage` swallows it), the run stores nothing, yet the
conversation watermark is still advanced to 10 — past the unpersisted
message — because `lastTs` tracks every fetched message regardless of
persistence success (src/ingest.ts lines 554-571). -/
theorem c1_watermark_advances_past_unpersisted :
    (ingestConversationRun (fun _ => "pl") (fun _ => false) none
        ⟨1, "C1", none⟩
        (fun _ => [⟨"message", some "U1", "hi", 10, none, none, none⟩])
        (fun _ => []) []).store = [] ∧
    (ingestConversationRun (fun _ => "pl") (fun _ => false) none
        ⟨1, "C1", none⟩
        (fun _ => [⟨"message", some "U1", "hi", 10, none, none, none⟩])
        (fun _ => []) []).watermark = some 10 := by
  constructor <;> rfl

/-! ## C3 -/

/-- C3: the code violates the claim.  End-to-end scenario: the history of a
conversation returns the thread starter (ts 1, `thread_ts` 1,
`reply_count` 1) and the thread-replies call would return the starter plus
one reply (ts 2, `thread_ts` 1).  First conjunct: the starter is not even
selected for reply backfill, because the filter
`m.thread_ts && !m.reply_count` excludes messages with a truthy
`reply_count`.  Second: after the run only the starter (ts 1) is persisted;
the reply (ts 2) is stored nowhere, so no row has `threadRoot` 1 and ts 2.
Third: `fetchThreadReplies` itself would return the reply (dropping the
parent), but `fetchMessages` discards its return value (src/ingest.ts
lines 317-326). -/
theorem c3_thread_reply_never_persisted :
    historyThreadFetchTargets
        [⟨"message", some "U1", "root", 1, some 1, some 1, none⟩] = [] ∧
    ((ingestConversationRun (fun _ => "pl") (fun _ => true) none
        ⟨7, "C1", none⟩
        (fun _ => [⟨"message", some "U1", "root", 1, some 1, some 1, none⟩])
        (fun t => if t = 1 then
          [⟨"message", some "U1", "root", 1, some 1, some 1, none⟩,
            ⟨"message", some "U2", "re", 2, some 1, none, none⟩]
          else []) []).store.map (fun r => (r.ts, r.thread_ts)) =
      [(1, some 1)]) ∧
    ((fetchThreadReplies
        [[⟨"message", some "U1", "root", 1, some 1, some 1, none⟩,
          ⟨"message", some "U2", "re", 2, some 1, none, none⟩]]).map
      (fun m => m.ts) = [2]) := by
  refine ⟨rfl, ?_, rfl⟩
  rfl

/-! ## C4 -/

/-- The `lastTs` fold only ever yields the initial accumulator or the
timestamp of one of the folded messages. -/
theorem jsMaxTs_fold_mem (msgs : List HMsg) :
    ∀ (acc : Option Nat) (t : Nat),
      msgs.foldl (fun acc m =>
        match acc with
        | none => some m.ts
        | some t0 => if t0 < m.ts then some m.ts else acc) acc = some t →
      acc = some t ∨ ∃ m ∈ msgs, m.ts = t := by
  induction msgs with
  | nil =>
    intro acc t h
    exact Or.inl h
  | cons x xs ih =>
    intro acc t h
    rw [List.foldl_cons] at h
    rcases ih _ t h with hacc | ⟨m, hm, hts⟩
    · cases acc with
      | none =>
        have hacc' : some x.ts = some t := hacc
        rw [Option.some.injEq] at hacc'
        exact Or.inr ⟨x, List.mem_cons_self x xs, hacc'⟩
      | some t0 =>
        have hacc' : (if t0 < x.ts then some x.ts else some t0) = some t :=
          hacc
        by_cases hlt : t0 < x.ts
        · rw [if_pos hlt, Option.some.injEq] at hacc'
          exact Or.inr ⟨x, List.mem_cons_self x xs, hacc'⟩
        · rw [if_neg hlt] at hacc'
          exact Or.inl hacc'
    · exact Or.inr ⟨m, List.mem_cons_of_mem x hm, hts⟩

/-- `jsMaxTs` returns the timestamp of one of the messages. -/
theorem jsMaxTs_mem (msgs : List HMsg) (t : Nat)
    (h : jsMaxTs msgs = some t) : ∃ m ∈ msgs, m.ts = t := by
  rcases jsMaxTs_fold_mem msgs none t h with hacc | hm
  · exact absurd hacc (by simp)
  · exact hm

/-- C4 counterexample: a run with a since-override (10) earlier than the
stored watermark (50), where the API returns — respecting the requested
lower bound — a single message of timestamp 20 (e.g. the later messages
were deleted), rewrites the watermark to 20 < 50: the stored watermark
decreases. -/
theorem c4_since_override_lowers_watermark :
    (ingestConversationRun (fun _ => "pl") (fun _ => true) (some 10)
        ⟨1, "C1", some 50⟩
        (fun _ => [⟨"message", some "U1", "hi", 20, none, none, none⟩])
        (fun _ => []) []).watermark = some 20 ∧
    optTsLe (some 50) (some 20) = false := by
  constructor <;> rfl

/-- C4 (amended): without a since-override — provided the API honours the
requested lower bound, i.e. every returned message's timestamp is at least
the bound — the stored watermark never decreases across a run.  (With an
earlier since-override the code sets the watermark to the maximum fetched
timestamp unconditionally, which can lower it; see the counterexample.) -/
theorem c4_watermark_monotone_amended (permalinkOf : Nat → String)
    (persistOk : HMsg → Bool) (conv : ConvRow)
    (historyOf : Option Nat → List HMsg) (repliesOf : Nat → List HMsg)
    (store : List StoredMsg)
    (hbound : ∀ w, ingestOldest none conv.last_ts_processed = some w →
      ∀ m ∈ historyOf (some w), w ≤ m.ts) :
    optTsLe conv.last_ts_processed
      (ingestConversationRun permalinkOf persistOk none conv historyOf
        repliesOf store).watermark = true := by
  unfold ingestConversationRun ingestConversationMessages
  cases hw : conv.last_ts_processed with
  | none =>
    simp only [optTsLe]
  | some w =>
    have hb : ∀ m ∈ historyOf (some w), w ≤ m.ts := by
      intro m hm
      exact hbound w (by rw [ingestOldest, hw]) m (by
        simpa [ingestOldest, hw] using hm)
    simp only [ingestOldest, hw, fetchMessages]
    cases hmax : jsMaxTs (historyOf (some w)) with
    | none =>
      show optTsLe (some w) (some w) = true
      simp [optTsLe]
    | some t =>
      obtain ⟨m, hm, rfl⟩ := jsMaxTs_mem _ _ hmax
      show optTsLe (some w) (some m.ts) = true
      simp only [optTsLe]
      exact decide_eq_true (hb m hm)

/-- Witness for C4 (amended): a run without override over a batch
respecting the stored-watermark bound. -/
theorem c4_watermark_monotone_amended_witness :
    optTsLe (some 50)
      (ingestConversationRun (fun _ => "pl") (fun _ => true) none
        ⟨1, "C1", some 50⟩
        (fun _ => [⟨"message", some "U1", "hi", 60, none, none, none⟩])
        (fun _ => []) []).watermark = true := by
  have h := c4_watermark_monotone_amended (fun _ => "pl") (fun _ => true)
    ⟨1, "C1", some 50⟩
    (fun _ => [⟨"message", some "U1", "hi", 60, none, none, none⟩])
    (fun _ => []) [] (by
      intro w hw m hm
      have hw50 : (50 : Nat) = w := by
        simpa [ingestOldest] using hw
      subst hw50
      have hm60 : m = ⟨"message", some "U1", "hi", 60, none, none, none⟩ := by
        simpa using hm
      subst hm60
      decide)
  exact h

/-! ## C2 and C8 -/

/-- The effective retry-after is always at least one second. -/
theorem effRetryAfter_pos (ra : Option Nat) : 1 ≤ effRetryAfter ra := by
  cases ra with
  | none => exact le_refl 1
  | some r =>
    by_cases h : r = 0
    · simp [effRetryAfter, h]
    · simp only [effRetryAfter, if_neg h]
      omega

/-- JS `x || y` keeps a nonzero `x`. -/
theorem jsOrNat_of_pos (x y : Nat) (h : 0 < x) : jsOrNat x y = x := by
  rw [jsOrNat, if_neg (by omega)]

/-- Unfolding of the retry loop on a successful attempt. -/
theorem makeSlackRequestGo_ok {α : Type} (req : Nat → Except SlackErr α)
    (fuel delay idx : Nat) (a : α) (h : req idx = Except.ok a) :
    makeSlackRequestGo req fuel delay idx =
      ⟨Except.ok a, 1, [], []⟩ := by
  cases fuel with
  | zero => simp only [makeSlackRequestGo, h]
  | succ n => simp only [makeSlackRequestGo, h]

/-- Unfolding of the retry loop on a rate-limited attempt with retries
remaining. -/
theorem makeSlackRequestGo_rl {α : Type} (req : Nat → Except SlackErr α)
    (fuel delay idx : Nat) (e : SlackErr) (h : req idx = Except.error e)
    (hc : e.code = SlackErrCode.rateLimited) :
    makeSlackRequestGo req (fuel + 1) delay idx =
      ⟨(makeSlackRequestGo req fuel (delay * 2) (idx + 1)).result,
        (makeSlackRequestGo req fuel (delay * 2) (idx + 1)).attempts + 1,
        jsOrNat (effRetryAfter e.retryAfter * 1000) delay ::
          (makeSlackRequestGo req fuel (delay * 2) (idx + 1)).sleeps,
        delay ::
          (makeSlackRequestGo req fuel (delay * 2) (idx + 1)).delays⟩ := by
  simp only [makeSlackRequestGo, h, hc, if_true]

/-- Unfolding of the retry loop on a rate-limited attempt with the retry
budget exhausted. -/
theorem makeSlackRequestGo_rl_exhausted {α : Type}
    (req : Nat → Except SlackErr α) (delay idx : Nat) (e : SlackErr)
    (h : req idx = Except.error e)
    (hc : e.code = SlackErrCode.rateLimited) :
    makeSlackRequestGo req 0 delay idx = ⟨Except.error e, 1, [], []⟩ := by
  simp only [makeSlackRequestGo, h]

/-- Full trace of the retry loop when every attempt is rate-limited: the
budget is consumed entirely, one more attempt than the budget is made, the
final error is surfaced, each retried attempt sleeps
`retryAfter * 1000 || delay`, and the internal delay doubles each retried
attempt. -/
theorem makeSlackRequestGo_always_rl {α : Type}
    (req : Nat → Except SlackErr α) (errs : Nat → SlackErr)
    (hreq : ∀ i, req i = Except.error (errs i))
    (hrl : ∀ i, (errs i).code = SlackErrCode.rateLimited) :
    ∀ (fuel delay idx : Nat),
      (makeSlackRequestGo req fuel delay idx).attempts = fuel + 1 ∧
      (makeSlackRequestGo req fuel delay idx).result =
        Except.error (errs (idx + fuel)) ∧
      (makeSlackRequestGo req fuel delay idx).sleeps =
        (List.range fuel).map (fun j =>
          jsOrNat (effRetryAfter (errs (idx + j)).retryAfter * 1000)
            (delay * 2 ^ j)) ∧
      (makeSlackRequestGo req fuel delay idx).delays =
        (List.range fuel).map (fun j => delay * 2 ^ j) := by
  intro fuel
  induction fuel with
  | zero =>
    intro delay idx
    rw [makeSlackRequestGo_rl_exhausted req delay idx (errs idx) (hreq idx)
      (hrl idx)]
    simp
  | succ n ih =>
    intro delay idx
    rw [makeSlackRequestGo_rl req n delay idx (errs idx) (hreq idx)
      (hrl idx)]
    obtain ⟨ha, hr, hs, hd⟩ := ih (delay * 2) (idx + 1)
    refine ⟨by rw [ha], ?_, ?_, ?_⟩
    · rw [hr]
      have : idx + 1 + n = idx + (n + 1) := by omega
      rw [this]
    · show jsOrNat (effRetryAfter (errs idx).retryAfter * 1000) delay ::
        (makeSlackRequestGo req n (delay * 2) (idx + 1)).sleeps = _
      rw [hs, List.range_succ_eq_map, List.map_cons, List.map_map]
      have h0 : jsOrNat (effRetryAfter (errs (idx + 0)).retryAfter * 1000)
          (delay * 2 ^ 0) =
          jsOrNat (effRetryAfter (errs idx).retryAfter * 1000) delay := by
        norm_num
      rw [h0]
      refine congrArg _ (List.map_congr_left ?_)
      intro j _
      simp only [Function.comp_apply]
      show jsOrNat (effRetryAfter (errs (idx + 1 + j)).retryAfter * 1000)
          (delay * 2 * 2 ^ j) = _
      have hidx : idx + 1 + j = idx + (j + 1) := by omega
      have hpow : delay * 2 * 2 ^ j = delay * 2 ^ (j + 1) := by ring
      rw [hidx, hpow]
    · show delay ::
        (makeSlackRequestGo req n (delay * 2) (idx + 1)).delays = _
      rw [hd, List.range_succ_eq_map, List.map_cons, List.map_map]
      have h0 : delay * 2 ^ 0 = delay := by norm_num
      rw [h0]
      refine congrArg _ (List.map_congr_left ?_)
      intro j _
      simp only [Function.comp_apply]
      show delay * 2 * 2 ^ j = delay * 2 ^ (j + 1)
      ring

/-- C2: through the rate-limited wrapper with retry ceiling `N`, an
operation that is rate-limited twice and then succeeds returns the success
whenever `N ≥ 2`; an operation that is rate-limited on every attempt fails
(with the surfaced rate-limit error) after exactly `N + 1` attempts of the
underlying operation. -/
theorem c2_retry_ceiling {α : Type} :
    (∀ (req : Nat → Except SlackErr α) (e0 e1 : SlackErr) (a : α)
      (N d : Nat),
      req 0 = Except.error e0 → e0.code = SlackErrCode.rateLimited →
      req 1 = Except.error e1 → e1.code = SlackErrCode.rateLimited →
      req 2 = Except.ok a → 2 ≤ N →
      (makeSlackRequest req N d).result = Except.ok a) ∧
    (∀ (req : Nat → Except SlackErr α) (errs : Nat → SlackErr) (N d : Nat),
      (∀ i, req i = Except.error (errs i)) →
      (∀ i, (errs i).code = SlackErrCode.rateLimited) →
      (makeSlackRequest req N d).attempts = N + 1 ∧
        (makeSlackRequest req N d).result = Except.error (errs N)) := by
  constructor
  · intro req e0 e1 a N d h0 hc0 h1 hc1 h2 hN
    obtain ⟨n, rfl⟩ : ∃ n, N = n + 2 := ⟨N - 2, by omega⟩
    show (makeSlackRequestGo req (n + 2) d 0).result = Except.ok a
    rw [makeSlackRequestGo_rl req (n + 1) d 0 e0 h0 hc0]
    show (makeSlackRequestGo req (n + 1) (d * 2) 1).result = Except.ok a
    rw [makeSlackRequestGo_rl req n (d * 2) 1 e1 h1 hc1]
    show (makeSlackRequestGo req n (d * 2 * 2) 2).result = Except.ok a
    rw [makeSlackRequestGo_ok req n (d * 2 * 2) 2 a h2]
  · intro req errs N d hreq hrl
    obtain ⟨ha, hr, -, -⟩ := makeSlackRequestGo_always_rl req errs hreq hrl
      N d 0
    refine ⟨ha, ?_⟩
    show (makeSlackRequestGo req N d 0).result = Except.error (errs N)
    rw [hr, Nat.zero_add]

/-- Witness for C2 at concrete simulated APIs (ceiling 3 for the
twice-rate-limited case, ceiling 2 for the always-rate-limited case). -/
theorem c2_retry_ceiling_witness :
    (makeSlackRequest (fun i => if i < 2 then
        Except.error ⟨SlackErrCode.rateLimited, some 1⟩
      else Except.ok 42) 3 1000).result = Except.ok 42 ∧
    (makeSlackRequest (fun _ =>
        (Except.error ⟨SlackErrCode.rateLimited, some 1⟩ :
          Except SlackErr Nat)) 2 1000).attempts = 2 + 1 := by
  constructor
  · exact (c2_retry_ceiling (α := Nat)).1 _
      ⟨SlackErrCode.rateLimited, some 1⟩ ⟨SlackErrCode.rateLimited, some 1⟩
      42 3 1000 rfl rfl rfl rfl rfl (by omega)
  · exact ((c2_retry_ceiling (α := Nat)).2 _
      (fun _ => ⟨SlackErrCode.rateLimited, some 1⟩) 2 1000 (fun i => rfl)
      (fun i => rfl)).1

/-- C8 counterexample: with an API-supplied retryAfter of 1s and a current
backoff delay of 5000 ms, the single retried attempt sleeps 1000 ms — the
code sleeps `retryAfter * 1000 || delay`, not
`max(retryAfter * 1000, delay) = 5000`. -/
theorem c8_sleep_ignores_backoff :
    (makeSlackRequest (fun _ =>
        (Except.error ⟨SlackErrCode.rateLimited, some 1⟩ :
          Except SlackErr Nat)) 1 5000).sleeps = [1000] ∧
    max (1 * 1000) 5000 = 5000 ∧ (1000 : Nat) ≠ 5000 := by
  refine ⟨rfl, by norm_num, by norm_num⟩

/-- C8 (amended): on every rate-limited attempt with retries remaining the
client sleeps `retryAfter * 1000` milliseconds, where retryAfter defaults
to 1 when absent or zero — the doubling backoff delay (initialDelay · 2^k
at the k-th retry, recorded in the `delays` trace) would be used only if
`retryAfter * 1000` were zero, which cannot happen, so the sleep never
depends on the backoff. -/
theorem c8_sleep_retry_after_amended {α : Type}
    (req : Nat → Except SlackErr α) (errs : Nat → SlackErr) (N d : Nat)
    (hreq : ∀ i, req i = Except.error (errs i))
    (hrl : ∀ i, (errs i).code = SlackErrCode.rateLimited) :
    (makeSlackRequest req N d).sleeps =
      (List.range N).map (fun j => effRetryAfter (errs j).retryAfter * 1000) ∧
    (makeSlackRequest req N d).delays =
      (List.range N).map (fun j => d * 2 ^ j) := by
  obtain ⟨-, -, hs, hd⟩ := makeSlackRequestGo_always_rl req errs hreq hrl
    N d 0
  refine ⟨?_, by simpa using hd⟩
  rw [makeSlackRequest, hs]
  refine List.map_congr_left ?_
  intro j _
  rw [jsOrNat_of_pos _ _ (by
    have := effRetryAfter_pos (errs (0 + j)).retryAfter
    omega)]
  have : 0 + j = j := by omega
  rw [this]

set_option maxRecDepth 4000 in
/-- Witness for C8 (amended) at a concrete always-rate-limited API. -/
theorem c8_sleep_retry_after_amended_witness :
    (makeSlackRequest (fun _ =>
        (Except.error ⟨SlackErrCode.rateLimited, some 3⟩ :
          Except SlackErr Nat)) 2 100).sleeps =
      (List.range 2).map (fun _ => 3000) ∧
    (makeSlackRequest (fun _ =>
        (Except.error ⟨SlackErrCode.rateLimited, some 3⟩ :
          Except SlackErr Nat)) 2 100).delays =
      (List.range 2).map (fun j => 100 * 2 ^ j) := by
  have h := c8_sleep_retry_after_amended
    (fun _ => (Except.error ⟨SlackErrCode.rateLimited, some 3⟩ :
      Except SlackErr Nat))
    (fun _ => ⟨SlackErrCode.rateLimited, some 3⟩) 2 100 (fun i => rfl)
    (fun i => rfl)
  exact ⟨h.1, h.2⟩

/-! ## C5 -/

/-- A string starting with a nonempty prefix is nonempty. -/
theorem ne_empty_of_append_left (s t : String) (h : s ≠ "") :
    s ++ t ≠ "" := by
  intro he
  apply h
  have hlen := congrArg String.length he
  rw [String.length_append] at hlen
  have h0 : ("" : String).length = 0 := rfl
  rw [h0] at hlen
  have hs : s.length = 0 := by omega
  cases s with
  | mk data =>
    cases data with
    | nil => rfl
    | cons c cs => exact absurd hs (by simp [String.length])

/-- The recap text always starts with the `Channel: ` header, so it is
never empty. -/
theorem heuristicSummaryText_ne_empty (channelName periodFrom periodTo :
    String) (total threads participants : Nat) (keyMsgs : String) :
    heuristicSummaryText channelName periodFrom periodTo total threads
      participants keyMsgs ≠ "" := by
  rw [heuristicSummaryText]
  repeat apply ne_empty_of_append_left
  decide

/-- The heuristic recap is never null/empty. -/
theorem generateHeuristicSummary_recap_ne_empty (fmtTs : String → String)
    (chronoFirst : String → Option String) (msgs : List SumMsg)
    (channelName : String) :
    (generateHeuristicSummary fmtTs chronoFirst msgs channelName).summary ≠
      "" :=
  heuristicSummaryText_ne_empty _ _ _ _ _ _ _

/-- C5: for a non-empty window, whenever the model-backed path throws or is
unconfigured, `generateSummaryForTimeWindow` falls back to the heuristic
path, persists the summary row, and returns it; the row carries the
heuristic `SummaryData` — the same shape as the model output: recap text
(non-null and nonempty), highlights, tasks and mentions fields all
populated from the heuristic data. -/
theorem c5_summary_fallback (fmtTs : String → String)
    (chronoFirst : String → Option String) (c : ConvRowS)
    (msgs : List SumMsg) (aiPath : Option (Except Unit SummaryData))
    (startT endT : Nat) (store : List StoredSummary) (hne : msgs ≠ [])
    (hfb : aiPath = none ∨ aiPath = some (Except.error ())) :
    ∃ row : StoredSummary,
      generateSummaryForTimeWindow fmtTs chronoFirst (some c) msgs aiPath
          startT endT store = (Except.ok (some row), store ++ [row]) ∧
      row.summary =
        (generateHeuristicSummary fmtTs chronoFirst msgs c.name).summary ∧
      row.highlights =
        (generateHeuristicSummary fmtTs chronoFirst msgs c.name).highlights ∧
      row.tasks =
        (generateHeuristicSummary fmtTs chronoFirst msgs c.name).tasks ∧
      row.mentions =
        (generateHeuristicSummary fmtTs chronoFirst msgs c.name).mentions ∧
      row.summary ≠ "" := by
  have hemp : msgs.isEmpty = false := by
    cases msgs with
    | nil => exact absurd rfl hne
    | cons a l => rfl
  refine ⟨⟨c.id, startT, endT,
    (generateHeuristicSummary fmtTs chronoFirst msgs c.name).summary,
    (generateHeuristicSummary fmtTs chronoFirst msgs c.name).highlights,
    (generateHeuristicSummary fmtTs chronoFirst msgs c.name).tasks,
    (generateHeuristicSummary fmtTs chronoFirst msgs c.name).mentions⟩,
    ?_, rfl, rfl, rfl, rfl,
    generateHeuristicSummary_recap_ne_empty fmtTs chronoFirst msgs c.name⟩
  rcases hfb with rfl | rfl <;>
    simp only [generateSummaryForTimeWindow, hemp, Bool.false_eq_true,
      if_false]

/-- Witness for C5 at a concrete one-message window with a throwing model
path. -/
theorem c5_summary_fallback_witness :
    ∃ row : StoredSummary,
      generateSummaryForTimeWindow (fun s => s) (fun _ => none)
          (some ⟨1, "gen"⟩) [⟨"hi?", "1.0", none, "pl", "U1", none⟩]
          (some (Except.error ())) 0 10 [] =
        (Except.ok (some row), [] ++ [row]) ∧
      row.summary =
        (generateHeuristicSummary (fun s => s) (fun _ => none)
          [⟨"hi?", "1.0", none, "pl", "U1", none⟩] "gen").summary ∧
      row.highlights =
        (generateHeuristicSummary (fun s => s) (fun _ => none)
          [⟨"hi?", "1.0", none, "pl", "U1", none⟩] "gen").highlights ∧
      row.tasks =
        (generateHeuristicSummary (fun s => s) (fun _ => none)
          [⟨"hi?", "1.0", none, "pl", "U1", none⟩] "gen").tasks ∧
      row.mentions =
        (generateHeuristicSummary (fun s => s) (fun _ => none)
          [⟨"hi?", "1.0", none, "pl", "U1", none⟩] "gen").mentions ∧
      row.summary ≠ "" := by
  have h := c5_summary_fallback (fun s => s) (fun _ => none) ⟨1, "gen"⟩
    [⟨"hi?", "1.0", none, "pl", "U1", none⟩] (some (Except.error ())) 0 10 []
    (by simp) (Or.inr rfl)
  exact h

end SlackSummarizer
